import Mathlib

/-!
Shallow embedding of the `medquery_dataloader` ingestion script
(`src/load_data.py` and `src/models.py`).

The script fetches PubMed records, extracts validated paper records,
embeds their abstracts in fixed-size batches and commits the resulting
entities to a vector store.  Network transport, the sentence-embedding
model and the database are external collaborators: they are modelled as
parameters (raw parsed records, an abstract encode function, a commit
outcome function), while every piece of logic the script itself performs
(record extraction and filtering, exception flow, batching, pairing,
entity construction, top-level control flow) is translated directly from
the Python source.
-/

namespace MedQuery

/-- Python exception classes relevant to the script.  `keyError` and
`indexError` arise from dictionary / list access in
`fetch_pubmed_abstracts`; the remaining constructors stand for the
exception classes raised by external collaborators (network transport,
the embedding model, the database commit). -/
inductive Exn where
  | keyError
  | indexError
  | networkError
  | embedError
  | commitError
deriving DecidableEq

instance {ε α : Type _} [DecidableEq ε] [DecidableEq α] : DecidableEq (Except ε α) := by
  intro a b
  cases a <;> cases b
  case error.error e f =>
    exact if h : e = f then .isTrue (by rw [h]) else .isFalse (by simp [h])
  case error.ok e x => exact .isFalse (by simp)
  case ok.error x e => exact .isFalse (by simp)
  case ok.ok x y =>
    exact if h : x = y then .isTrue (by rw [h]) else .isFalse (by simp [h])

/-- `article['Abstract']['AbstractText']` as parsed by `Entrez.read`:
either a single string or a list of string segments
(`load_data.py` lines 56-61 branches on `isinstance(abstract_parts, list)`). -/
inductive AbstractText where
  | single (s : String)
  | parts (l : List String)
deriving DecidableEq

/-- One entry of `article['ArticleDate']`: a dictionary that may or may
not carry the `Year` / `Month` / `Day` keys (a missing key raises
`KeyError` in `load_data.py` line 66). -/
structure ArticleDateEntry where
  year : Option String
  month : Option String
  day : Option String
deriving DecidableEq

/-- `record['MedlineCitation']['Article']` as a dictionary.
`articleTitle` models the `ArticleTitle` key (missing raises `KeyError`,
line 51).  `abstractField` models the `Abstract` key: the outer `Option`
is the `'Abstract' in article` membership test (line 55) and the inner
`Option` is the `AbstractText` key inside it (line 56, missing raises
`KeyError`).  `articleDate` models the `ArticleDate` key: the outer
`Option` is the `'ArticleDate' in article` test (line 65); the payload is
the parsed list, which the code indexes with `[0]` (line 66), raising
`IndexError` when the list is empty. -/
structure Article where
  articleTitle : Option String
  abstractField : Option (Option AbstractText)
  articleDate : Option (List ArticleDateEntry)
deriving DecidableEq

/-- `record['MedlineCitation']`: carries the `PMID` key and the
`Article` key, each possibly missing (`KeyError`, lines 49-50). -/
structure MedlineCitation where
  pmid : Option String
  article : Option Article
deriving DecidableEq

/-- One element of `records['PubmedArticle']` (line 47); the
`MedlineCitation` key may be missing. -/
structure PubmedRecord where
  medlineCitation : Option MedlineCitation
deriving DecidableEq

/-- The flat paper dictionary appended at `load_data.py` lines 69-74. -/
structure Paper where
  pmid : String
  title : String
  abstract : String
  publication_date : String
deriving DecidableEq

/-- Configuration constant `SEARCH_TERM` (line 11). -/
def SEARCH_TERM : String := "nutrition AND diabetes"

/-- Configuration constant `MAX_PAPERS` (line 12). -/
def MAX_PAPERS : Nat := 500

/-- Configuration constant `BATCH_SIZE` (line 13). -/
def BATCH_SIZE : Nat := 100

/-- Dictionary access `d[k]`: a missing key raises `KeyError`. -/
def getKey {α : Type _} : Option α → Except Exn α
  | none => Except.error Exn.keyError
  | some a => Except.ok a

/-- `load_data.py` lines 54-61: the abstract text.  When the `Abstract`
key is absent the text stays `""`; otherwise the `AbstractText` key is
read (`KeyError` if missing), and a list of parts is joined with a
single space (`" ".join(abstract_parts)`), a plain string is used
as-is. -/
def extractAbstractText (article : Article) : Except Exn String :=
  match article.abstractField with
  | none => Except.ok ""
  | some none => Except.error Exn.keyError
  | some (some (AbstractText.parts l)) => Except.ok (String.intercalate " " l)
  | some (some (AbstractText.single s)) => Except.ok s

/-- `load_data.py` lines 63-66: the publication date.  When the
`ArticleDate` key is absent the date stays `""`; otherwise entry `[0]`
is read (`IndexError` on an empty list) and its `Year`, `Month` and
`Day` keys are joined as `"Year-Month-Day"` (`KeyError` if a component
is missing). -/
def extractPubDate (article : Article) : Except Exn String :=
  match article.articleDate with
  | none => Except.ok ""
  | some [] => Except.error Exn.indexError
  | some (d :: _) =>
    match d.year, d.month, d.day with
    | some y, some m, some dd => Except.ok (y ++ "-" ++ m ++ "-" ++ dd)
    | _, _, _ => Except.error Exn.keyError

/-- `load_data.py` lines 49-66 in source evaluation order: article,
pmid, title, abstract text, publication date.  The first failing access
determines the raised exception. -/
def extractFields (record : PubmedRecord) :
    Except Exn (String × String × String × String) :=
  match getKey record.medlineCitation with
  | Except.error e => Except.error e
  | Except.ok citation =>
    match getKey citation.article with
    | Except.error e => Except.error e
    | Except.ok article =>
      match getKey citation.pmid with
      | Except.error e => Except.error e
      | Except.ok pmid =>
        match getKey article.articleTitle with
        | Except.error e => Except.error e
        | Except.ok title =>
          match extractAbstractText article with
          | Except.error e => Except.error e
          | Except.ok abstractText =>
            match extractPubDate article with
            | Except.error e => Except.error e
            | Except.ok pubDate => Except.ok (pmid, title, abstractText, pubDate)

/-- The body of one iteration of the `for record in records` loop
(lines 48-74): field extraction followed by the truthiness filter
`if title and abstract_text` (line 68).  `Except.ok none` means the
record passed extraction but was filtered out; an exception means the
extraction raised. -/
def processRecord (record : PubmedRecord) : Except Exn (Option Paper) :=
  match extractFields record with
  | Except.error e => Except.error e
  | Except.ok (pmid, title, abstractText, pubDate) =>
    if title ≠ "" ∧ abstractText ≠ "" then
      Except.ok (some (Paper.mk pmid title abstractText pubDate))
    else
      Except.ok none

/-- The record-processing loop of `fetch_pubmed_abstracts`
(lines 46-77): a `KeyError` is caught by `except KeyError: continue`
and the record skipped; any other exception (in particular the
`IndexError` of line 66) escapes the loop and aborts the fetch;
filtered records are not appended. -/
def fetch_pubmed_abstracts : List PubmedRecord → Except Exn (List Paper)
  | [] => Except.ok []
  | record :: rest =>
    match processRecord record with
    | Except.error Exn.keyError => fetch_pubmed_abstracts rest
    | Except.error e => Except.error e
    | Except.ok none => fetch_pubmed_abstracts rest
    | Except.ok (some p) =>
      match fetch_pubmed_abstracts rest with
      | Except.error e => Except.error e
      | Except.ok ps => Except.ok (p :: ps)

/-- `src/models.py` lines 5-14: the `MedicalAbstract` table row.  The
surrogate key `id` is auto-assigned by the store and never set by the
script, so it is omitted; `T` is the type of the stored embedding
payload (the result of `.tolist()`). -/
structure MedicalAbstract (T : Type _) where
  pmid : String
  title : String
  abstract : String
  publication_date : String
  embedding : T
deriving DecidableEq

/-- The embedding provider (`SentenceTransformer`): `encode` maps a
list of texts to a list of native vectors of type `A` (or raises), and
`tolist` is the `.tolist()` conversion of one native vector into the
stored payload of type `T` (`load_data.py` line 106). -/
structure Provider (A T : Type _) where
  encode : List String → Except Exn (List A)
  tolist : A → T

/-- Observable side effects of a run, used to state ordering and
occurrence properties. -/
inductive LoadEvent (T : Type _) where
  | initDb
  | loadModel
  | fetchCall
  | embedCall (texts : List String)
  | commitBatch (objs : List (MedicalAbstract T))
deriving DecidableEq

/-- `load_data.py` lines 99-108: `zip(batch_papers, embeddings)`
truncates to the shorter list; each pair yields one `MedicalAbstract`
row carrying the paper's fields and the converted embedding. -/
def mkObjects {A T : Type _} (prov : Provider A T) (batch : List Paper)
    (embeddings : List A) : List (MedicalAbstract T) :=
  (batch.zip embeddings).map fun pe =>
    MedicalAbstract.mk pe.1.pmid pe.1.title pe.1.abstract pe.1.publication_date
      (prov.tolist pe.2)

/-- One iteration of the batch loop of `load_data_into_db`
(lines 88-116): collect the batch's abstracts, call `model.encode`
once, build the rows, `session.add_all` + `session.commit` once.
`commitRes objs = none` models a successful commit, `some e` a commit
that raises `e`.  Returns the events of the iteration and the
exception, if any, that escapes it. -/
def loadBatch {A T : Type _} (prov : Provider A T)
    (commitRes : List (MedicalAbstract T) → Option Exn) (batch : List Paper) :
    List (LoadEvent T) × Option Exn :=
  let texts := batch.map Paper.abstract
  match prov.encode texts with
  | Except.error e => ([LoadEvent.embedCall texts], some e)
  | Except.ok embeddings =>
    let objs := mkObjects prov batch embeddings
    match commitRes objs with
    | some e => ([LoadEvent.embedCall texts], some e)
    | none => ([LoadEvent.embedCall texts, LoadEvent.commitBatch objs], none)

/-- The batch loop: iterations run in order; the first exception aborts
the remaining batches. -/
def loadLoop {A T : Type _} (prov : Provider A T)
    (commitRes : List (MedicalAbstract T) → Option Exn) :
    List (List Paper) → List (LoadEvent T) × Option Exn
  | [] => ([], none)
  | b :: rest =>
    match loadBatch prov commitRes b with
    | (evts, some e) => (evts, some e)
    | (evts, none) =>
      let out := loadLoop prov commitRes rest
      (evts ++ out.1, out.2)

/-- `range(0, n, B)` (line 87): the start indices `0, B, 2B, …` below
`n`; there are `⌈n / B⌉ = (n + B - 1) / B` of them. -/
def pyRangeStep (n B : Nat) : List Nat :=
  (List.range ((n + B - 1) / B)).map fun k => k * B

/-- The batch slices `papers[i : i + B]` for `i in range(0, len(papers), B)`
(lines 87-88). -/
def batches (B : Nat) (papers : List Paper) : List (List Paper) :=
  (pyRangeStep papers.length B).map fun i => (papers.drop i).take B

/-- `load_data_into_db` (lines 82-118): run the batch loop over the
slices of `papers`. -/
def load_data_into_db {A T : Type _} (B : Nat) (prov : Provider A T)
    (commitRes : List (MedicalAbstract T) → Option Exn) (papers : List Paper) :
    List (LoadEvent T) × Option Exn :=
  loadLoop prov commitRes (batches B papers)

/-- The environment of one run of `main` (lines 120-150): whether the
database setup of lines 16-28 succeeds (`initOk`), whether
`SentenceTransformer(EMBEDDING_MODEL)` loads (`modelOk`), whether the
Entrez network calls of `fetch_pubmed_abstracts` succeed
(`fetchNetOk`), the parsed records they return, the embedding provider
and the commit behaviour. -/
structure Env (A T : Type _) where
  initOk : Bool
  modelOk : Bool
  fetchNetOk : Bool
  rawRecords : List PubmedRecord
  prov : Provider A T
  commitRes : List (MedicalAbstract T) → Option Exn

/-- How the process ends.  `exited c` is an explicit `sys.exit(c)`
(`SystemExit` is not an `Exception`, so it escapes the `try` of `main`);
`caughtGeneric` is the top-level `except Exception` of lines 148-150
printing its generic diagnostic and letting `main` return, so the
process ends with the default status; `success` is the normal
completion of lines 144-146. -/
inductive MainResult where
  | exited (code : Nat)
  | caughtGeneric
  | success
deriving DecidableEq

/-- The network phase of `fetch_pubmed_abstracts` (lines 32-42)
followed by the processing loop: a network failure raises out of the
fetch; otherwise the parsed records are processed. -/
def runFetch {A T : Type _} (env : Env A T) : Except Exn (List Paper) :=
  if env.fetchNetOk then fetch_pubmed_abstracts env.rawRecords
  else Except.error Exn.networkError

/-- `main` (lines 120-150): database setup (on failure: error printed
and `sys.exit(1)`, lines 25-28, escaping the `except Exception`), then
model load, then fetch, then the empty-result early exit
`sys.exit(0)` (lines 137-139), then the batch load; any `Exception`
raised after setup is caught at lines 148-150. -/
def main {A T : Type _} (env : Env A T) : List (LoadEvent T) × MainResult :=
  if env.initOk = false then
    ([LoadEvent.initDb], MainResult.exited 1)
  else if env.modelOk = false then
    ([LoadEvent.initDb, LoadEvent.loadModel], MainResult.caughtGeneric)
  else
    match runFetch env with
    | Except.error _ =>
      ([LoadEvent.initDb, LoadEvent.loadModel, LoadEvent.fetchCall],
        MainResult.caughtGeneric)
    | Except.ok papers =>
      if papers = [] then
        ([LoadEvent.initDb, LoadEvent.loadModel, LoadEvent.fetchCall],
          MainResult.exited 0)
      else
        let out := load_data_into_db BATCH_SIZE env.prov env.commitRes papers
        ([LoadEvent.initDb, LoadEvent.loadModel, LoadEvent.fetchCall] ++ out.1,
          match out.2 with
          | some _ => MainResult.caughtGeneric
          | none => MainResult.success)

/-- Is this event an embedding-provider call? -/
def isEmbedCall {T : Type _} : LoadEvent T → Bool
  | LoadEvent.embedCall _ => true
  | _ => false

/-- Is this event a successful batch commit? -/
def isCommit {T : Type _} : LoadEvent T → Bool
  | LoadEvent.commitBatch _ => true
  | _ => false

/-- Is this event the fetch of the record set? -/
def isFetchCall {T : Type _} : LoadEvent T → Bool
  | LoadEvent.fetchCall => true
  | _ => false

/-! ### Concrete data used by the witnesses -/

/-- A complete `ArticleDate[0]` entry. -/
def sampleDate : ArticleDateEntry := ⟨some "2024", some "01", some "02"⟩

/-- A fully well-formed article. -/
def sampleArticle : Article :=
  ⟨some "Sample Title", some (some (AbstractText.single "Sample abstract")),
    some [sampleDate]⟩

/-- A fully well-formed raw record. -/
def sampleRecord : PubmedRecord := ⟨some ⟨some "111", some sampleArticle⟩⟩

/-- The paper extracted from `sampleRecord`. -/
def samplePaper : Paper := ⟨"111", "Sample Title", "Sample abstract", "2024-01-02"⟩

/-- A well-formed article whose abstract body is split into segments. -/
def partsArticle : Article :=
  ⟨some "Parts Title", some (some (AbstractText.parts ["first part", "second part"])),
    none⟩

/-- A well-formed raw record with a multi-part abstract and no structured date. -/
def partsRecord : PubmedRecord := ⟨some ⟨some "222", some partsArticle⟩⟩

/-- The paper extracted from `partsRecord`. -/
def partsPaper : Paper := ⟨"222", "Parts Title", "first part second part", ""⟩

/-- An article whose `ArticleTitle` key is missing. -/
def noTitleArticle : Article := ⟨none, some (some (AbstractText.single "abs")), none⟩

/-- A raw record whose title is missing: its processing raises `KeyError`. -/
def noTitleRecord : PubmedRecord := ⟨some ⟨some "333", some noTitleArticle⟩⟩

/-- An article missing its abstract body (`Abstract` key absent) whose
`ArticleDate` key is present but holds an empty list. -/
def emptyDateArticle : Article := ⟨some "Orphan Title", none, some []⟩

/-- A raw record missing a required structural field (the abstract body)
whose processing nevertheless raises an uncaught `IndexError` through
`article['ArticleDate'][0]`. -/
def emptyDateRecord : PubmedRecord := ⟨some ⟨some "444", some emptyDateArticle⟩⟩

/-- A concrete embedding provider for witnesses: each text is encoded
to its length, and `.tolist()` wraps it in a singleton list. -/
def sampleProvider : Provider Nat (List Nat) :=
  ⟨fun ts => Except.ok (ts.map String.length), fun n => [n]⟩

/-- The pure encode function underlying `sampleProvider`. -/
def sampleEncode : List String → List Nat := fun ts => ts.map String.length

/-- A commit that always succeeds. -/
def commitOk : List (MedicalAbstract (List Nat)) → Option Exn := fun _ => none

/-- A commit that always raises (e.g. a uniqueness violation). -/
def commitViolation : List (MedicalAbstract (List Nat)) → Option Exn :=
  fun _ => some Exn.commitError

/-! ### Helper lemmas -/

/-- Inverting a successful, retained record: extraction succeeded with
exactly the paper's fields and the truthiness filter passed. -/
theorem processRecord_ok_some {r : PubmedRecord} {p : Paper}
    (h : processRecord r = Except.ok (some p)) :
    extractFields r = Except.ok (p.pmid, p.title, p.abstract, p.publication_date) ∧
      p.title ≠ "" ∧ p.abstract ≠ "" := by
  unfold processRecord at h
  split at h
  next e hf => simp at h
  next pmid title abstractText pubDate hf =>
  split at h
  · next hc =>
    injection h with h
    injection h with h
    subst h
    exact ⟨hf, hc.1, hc.2⟩
  · simp at h

/-- A dictionary access succeeds exactly when the key is present. -/
theorem getKey_ok_iff {α : Type _} {o : Option α} {x : α} :
    getKey o = Except.ok x ↔ o = some x := by
  cases o <;> simp [getKey]

/-- Inverting a successful field extraction: every dictionary access on
the way succeeded, in source order. -/
theorem extractFields_ok {r : PubmedRecord} {pm t a d : String}
    (h : extractFields r = Except.ok (pm, t, a, d)) :
    ∃ citation article, r.medlineCitation = some citation ∧
      citation.article = some article ∧ citation.pmid = some pm ∧
      article.articleTitle = some t ∧
      extractAbstractText article = Except.ok a ∧
      extractPubDate article = Except.ok d := by
  unfold extractFields at h
  split at h
  next e hmc => simp at h
  next citation hmc =>
  split at h
  next e hart => simp at h
  next article hart =>
  split at h
  next e hpm => simp at h
  next pmid hpm =>
  split at h
  next e hti => simp at h
  next title hti =>
  split at h
  next e hab => simp at h
  next abstractText hab =>
  split at h
  next e hpd => simp at h
  next pubDate hpd =>
  injection h with h
  simp only [Prod.mk.injEq] at h
  obtain ⟨h1, h2, h3, h4⟩ := h
  subst h1; subst h2; subst h3; subst h4
  exact ⟨citation, article, getKey_ok_iff.mp hmc, getKey_ok_iff.mp hart,
    getKey_ok_iff.mp hpm, getKey_ok_iff.mp hti, hab, hpd⟩

/-- A record whose processing raises `KeyError`, or which the
truthiness filter drops, leaves the fetch result unchanged wherever it
sits in the input sequence. -/
theorem fetch_skip (r : PubmedRecord)
    (hr : processRecord r = Except.error Exn.keyError ∨
      processRecord r = Except.ok none) :
    ∀ pre post, fetch_pubmed_abstracts (pre ++ r :: post) =
      fetch_pubmed_abstracts (pre ++ post)
  | [], post => by
    rcases hr with h | h <;> simp [fetch_pubmed_abstracts, h]
  | a :: pre, post => by
    have ih := fetch_skip r hr pre post
    simp only [List.cons_append, fetch_pubmed_abstracts, List.append_eq]
    rw [ih]

/-- Under an encode function that always succeeds and commits that
always succeed, the batch loop visits every batch in order, emitting
exactly one embed call followed by one commit per batch, and raises
nothing. -/
theorem loadLoop_ok {A T : Type _} (prov : Provider A T)
    (f : List String → List A)
    (henc : ∀ ts, prov.encode ts = Except.ok (f ts))
    (commitRes : List (MedicalAbstract T) → Option Exn)
    (hc : ∀ objs, commitRes objs = none) :
    ∀ bs, loadLoop prov commitRes bs =
      (bs.flatMap fun b =>
        [LoadEvent.embedCall (b.map Paper.abstract),
          LoadEvent.commitBatch (mkObjects prov b (f (b.map Paper.abstract)))],
        none)
  | [] => by simp [loadLoop]
  | b :: rest => by
    have ih := loadLoop_ok prov f henc commitRes hc rest
    simp [loadLoop, loadBatch, henc, hc, ih]

/-- `isEmbedCall` on an embed call. -/
theorem isEmbedCall_embedCall {T : Type _} (texts : List String) :
    isEmbedCall (T := T) (LoadEvent.embedCall texts) = true := rfl

/-- `isEmbedCall` on a commit. -/
theorem isEmbedCall_commitBatch {T : Type _} (objs : List (MedicalAbstract T)) :
    isEmbedCall (LoadEvent.commitBatch objs) = false := rfl

/-- `isCommit` on an embed call. -/
theorem isCommit_embedCall {T : Type _} (texts : List String) :
    isCommit (T := T) (LoadEvent.embedCall texts) = false := rfl

/-- `isCommit` on a commit. -/
theorem isCommit_commitBatch {T : Type _} (objs : List (MedicalAbstract T)) :
    isCommit (LoadEvent.commitBatch objs) = true := rfl

/-- Counting embed calls and commits in the event list of a fully
successful run: one of each per batch. -/
theorem countP_batch_events {A T : Type _} (prov : Provider A T)
    (f : List String → List A) :
    ∀ bs : List (List Paper),
      List.countP (fun e => isEmbedCall e)
          (bs.flatMap fun b =>
            [LoadEvent.embedCall (b.map Paper.abstract),
              LoadEvent.commitBatch (mkObjects prov b (f (b.map Paper.abstract)))]) =
        bs.length ∧
      List.countP (fun e => isCommit e)
          (bs.flatMap fun b =>
            [LoadEvent.embedCall (b.map Paper.abstract),
              LoadEvent.commitBatch (mkObjects prov b (f (b.map Paper.abstract)))]) =
        bs.length
  | [] => by simp
  | b :: bs => by
    have ih := countP_batch_events prov f bs
    simp [List.flatMap_cons, List.countP_append, List.countP_cons,
      isEmbedCall_embedCall, isEmbedCall_commitBatch, isCommit_embedCall,
      isCommit_commitBatch, ih.1, ih.2]

/-- `zip` truncation: the number of constructed entities is the length
of the shorter of the two zipped lists. -/
theorem mkObjects_length {A T : Type _} (prov : Provider A T)
    (batch : List Paper) (embeddings : List A) :
    (mkObjects prov batch embeddings).length =
      min batch.length embeddings.length := by
  simp [mkObjects]

/-- Positional pairing: the `i`-th constructed entity carries the
`i`-th paper's fields and the converted `i`-th embedding. -/
theorem mkObjects_getElem? {A T : Type _} (prov : Provider A T) :
    ∀ (batch : List Paper) (embeddings : List A) (i : Nat) (p : Paper) (e : A),
      batch[i]? = some p → embeddings[i]? = some e →
      (mkObjects prov batch embeddings)[i]? =
        some (MedicalAbstract.mk p.pmid p.title p.abstract p.publication_date
          (prov.tolist e))
  | [], _, i, p, e => by intro hp he; simp at hp
  | _ :: _, [], i, p, e => by intro hp he; simp at he
  | b :: bs, x :: xs, 0, p, e => by
    intro hp he
    simp at hp he
    subst hp; subst he
    simp [mkObjects]
  | b :: bs, x :: xs, i + 1, p, e => by
    intro hp he
    simp only [List.getElem?_cons_succ] at hp he
    have ih := mkObjects_getElem? prov bs xs i p e hp he
    simpa [mkObjects] using ih

/-- Arithmetic of `range(0, n, B)`: a start index that is not the last
one has a full batch of `B` elements after it. -/
theorem mul_batch_le {n B k : Nat} (hB : 0 < B)
    (h : k + 1 < (n + B - 1) / B) : k * B + B ≤ n := by
  have h2 : (k + 2) * B ≤ n + B - 1 :=
    (Nat.le_div_iff_mul_le hB).mp (by omega)
  have h3 : k * B + 2 * B ≤ n + B - 1 := by
    have e : (k + 2) * B = k * B + 2 * B := by ring
    rw [e] at h2; exact h2
  have hB' : 0 < B := hB
  generalize k * B = m at h3 ⊢
  omega

/-- Arithmetic of the final slice: its length is `n % B`, or `B` when
`B` divides `n`. -/
theorem lastSliceLen {n B : Nat} (hB : 0 < B) (hn : 0 < n) :
    min B (n - ((n + B - 1) / B - 1) * B) =
      if n % B = 0 then B else n % B := by
  obtain ⟨q, r, hr, rfl⟩ : ∃ q r, r < B ∧ n = B * q + r :=
    ⟨n / B, n % B, Nat.mod_lt _ hB, (Nat.div_add_mod n B).symm⟩
  by_cases hr0 : r = 0
  · subst hr0
    obtain ⟨q', rfl⟩ : ∃ q', q = q' + 1 := by
      rcases Nat.eq_zero_or_pos q with h0 | h0
      · subst h0; simp at hn
      · exact ⟨q - 1, by omega⟩
    have hC : (B * (q' + 1) + 0 + B - 1) / B = q' + 1 := by
      rw [Nat.add_zero, Nat.add_sub_assoc (by omega : 1 ≤ B),
        Nat.mul_add_div hB, Nat.div_eq_of_lt (by omega), Nat.add_zero]
    rw [hC]
    have hmod : (B * (q' + 1) + 0) % B = 0 := by
      simp [Nat.mul_mod_right]
    rw [if_pos hmod]
    have e2 : B * (q' + 1) = q' * B + B := by ring
    simp only [Nat.add_zero, Nat.add_sub_cancel]
    rw [e2, Nat.add_sub_cancel_left]
    exact Nat.min_self B
  · have hC : (B * q + r + B - 1) / B = q + 1 := by
      have e1 : B * q + r + B - 1 = B * q + (r + B - 1) := by
        rw [Nat.add_assoc, Nat.add_sub_assoc (by omega : 1 ≤ r + B)]
      rw [e1, Nat.mul_add_div hB]
      have : (r + B - 1) / B = 1 := by
        apply Nat.div_eq_of_lt_le <;> omega
      rw [this]
    rw [hC]
    have hmod : (B * q + r) % B = r := by
      rw [Nat.mul_add_mod, Nat.mod_eq_of_lt hr]
    rw [hmod, if_neg hr0]
    have e2 : B * q + r - (q + 1 - 1) * B = r := by
      rw [Nat.add_sub_cancel, Nat.mul_comm B q, Nat.add_sub_cancel_left]
    rw [e2]
    exact Nat.min_eq_right (Nat.le_of_lt hr)

/-! ### Claims -/

/-- Claim C1, counterexample.  The claim states that any record missing
required structural fields (title, abstract body, identifier) is
skipped regardless of the shape of the malformation, and the fetch
completes.  `emptyDateRecord` is missing its abstract body (the
`Abstract` key is absent), yet its `ArticleDate` key holds an empty
list, so `article['ArticleDate'][0]` raises an `IndexError` that the
`except KeyError` handler does not catch: the whole fetch aborts
instead of returning a sequence. -/
theorem c1_counterexample :
    emptyDateArticle.abstractField = none ∧
    fetch_pubmed_abstracts [emptyDateRecord] = Except.error Exn.indexError ∧
    fetch_pubmed_abstracts [emptyDateRecord] ≠ Except.ok [] :=
  ⟨rfl, by decide, by decide⟩

/-- Claim C1, amended: a malformed record is skipped and excluded, and
the fetch of the remaining records is unaffected, exactly when its
processing raises a `KeyError` (a missing `MedlineCitation`, `Article`,
`PMID`, `ArticleTitle`, inner `AbstractText`, or date-component key) or
when it survives extraction with an empty title or abstract and is
dropped by the filter — not for every malformation shape, since a
present-but-empty `ArticleDate` list aborts the fetch with an uncaught
`IndexError`. -/
theorem c1_theorem (r : PubmedRecord)
    (hr : processRecord r = Except.error Exn.keyError ∨
      processRecord r = Except.ok none)
    (pre post : List PubmedRecord) :
    fetch_pubmed_abstracts (pre ++ r :: post) =
      fetch_pubmed_abstracts (pre ++ post) :=
  fetch_skip r hr pre post

/-- Witness for C1: a record with a missing title is skipped. -/
theorem c1_witness :
    fetch_pubmed_abstracts [sampleRecord, noTitleRecord] =
      fetch_pubmed_abstracts [sampleRecord] :=
  c1_theorem noTitleRecord (Or.inl (by decide)) [sampleRecord] []

/-- Claim C3: every Document Record in the Record Fetcher's output has
a non-empty title and a non-empty abstract text, and the output count
is at most the input count. -/
theorem c3_theorem :
    ∀ (records : List PubmedRecord) (papers : List Paper),
      fetch_pubmed_abstracts records = Except.ok papers →
      (∀ p ∈ papers, p.title ≠ "" ∧ p.abstract ≠ "") ∧
        papers.length ≤ records.length
  | [], papers => by
    intro h
    simp only [fetch_pubmed_abstracts, Except.ok.injEq] at h
    subst h
    simp
  | r :: rest, papers => by
    intro h
    simp only [fetch_pubmed_abstracts] at h
    cases hrec : processRecord r with
    | error e =>
      rw [hrec] at h
      cases e with
      | keyError =>
        obtain ⟨h1, h2⟩ := c3_theorem rest papers h
        exact ⟨h1, by simp only [List.length_cons]; omega⟩
      | indexError => simp at h
      | networkError => simp at h
      | embedError => simp at h
      | commitError => simp at h
    | ok op =>
      rw [hrec] at h
      cases op with
      | none =>
        obtain ⟨h1, h2⟩ := c3_theorem rest papers h
        exact ⟨h1, by simp only [List.length_cons]; omega⟩
      | some p =>
        cases hrest : fetch_pubmed_abstracts rest with
        | error e => rw [hrest] at h; simp at h
        | ok ps =>
          rw [hrest] at h
          injection h with h
          subst h
          obtain ⟨ih1, ih2⟩ := c3_theorem rest ps hrest
          have hp := processRecord_ok_some hrec
          refine ⟨?_, by simp only [List.length_cons]; omega⟩
          intro x hx
          rcases List.mem_cons.mp hx with h1 | h1
          · subst h1; exact ⟨hp.2.1, hp.2.2⟩
          · exact ih1 x h1

/-- Witness for C3 at a concrete input: one well-formed record and one
record with a missing title yield one valid paper. -/
theorem c3_witness :
    (∀ p ∈ [samplePaper], p.title ≠ "" ∧ p.abstract ≠ "") ∧
      ([samplePaper] : List Paper).length ≤
        ([sampleRecord, noTitleRecord] : List PubmedRecord).length :=
  c3_theorem [sampleRecord, noTitleRecord] [samplePaper] (by decide)

/-- Claim C8: a multi-part abstract body is joined with a single space
separator in original order, a single-part body is used as-is, and the
joined text is exactly the abstract a retained paper carries. -/
theorem c8_theorem :
    (∀ (article : Article) (l : List String),
      article.abstractField = some (some (AbstractText.parts l)) →
      extractAbstractText article = Except.ok (String.intercalate " " l)) ∧
    (∀ (article : Article) (s : String),
      article.abstractField = some (some (AbstractText.single s)) →
      extractAbstractText article = Except.ok s) ∧
    (∀ (r : PubmedRecord) (citation : MedlineCitation) (article : Article)
        (l : List String) (p : Paper),
      r.medlineCitation = some citation → citation.article = some article →
      article.abstractField = some (some (AbstractText.parts l)) →
      processRecord r = Except.ok (some p) →
      p.abstract = String.intercalate " " l) := by
  refine ⟨?_, ?_, ?_⟩
  · intro article l h
    simp [extractAbstractText, h]
  · intro article s h
    simp [extractAbstractText, h]
  · intro r citation article l p hmc hart habs hp
    obtain ⟨hf, -, -⟩ := processRecord_ok_some hp
    obtain ⟨cc, aa, hmc2, hart2, hpm2, hti2, hab2, hpd2⟩ := extractFields_ok hf
    rw [hmc] at hmc2
    injection hmc2 with hcc
    subst hcc
    rw [hart] at hart2
    injection hart2 with haa
    subst haa
    simp [extractAbstractText, habs] at hab2
    exact hab2.symm

/-- Witness for C8 at a concrete two-part abstract. -/
theorem c8_witness :
    partsArticle.abstractField =
      some (some (AbstractText.parts ["first part", "second part"])) ∧
    extractAbstractText partsArticle =
      Except.ok (String.intercalate " " ["first part", "second part"]) ∧
    partsPaper.abstract = String.intercalate " " ["first part", "second part"] :=
  ⟨rfl, c8_theorem.1 partsArticle _ rfl,
    c8_theorem.2.2 partsRecord ⟨some "222", some partsArticle⟩ partsArticle _
      partsPaper rfl rfl rfl (by decide)⟩

/-- Claim C9: for every retained record, the publication date is the
structured `Year-Month-Day` join of the first `ArticleDate` entry when
that key is present, and the empty string when it is absent. -/
theorem c9_theorem (r : PubmedRecord) (p : Paper)
    (h : processRecord r = Except.ok (some p)) :
    ∃ citation article, r.medlineCitation = some citation ∧
      citation.article = some article ∧
      ((article.articleDate = none ∧ p.publication_date = "") ∨
        (∃ d rest y m dd, article.articleDate = some (d :: rest) ∧
          d.year = some y ∧ d.month = some m ∧ d.day = some dd ∧
          p.publication_date = y ++ "-" ++ m ++ "-" ++ dd)) := by
  obtain ⟨hf, -, -⟩ := processRecord_ok_some h
  obtain ⟨citation, article, hmc, hart, hpm, hti, hab, hpd⟩ := extractFields_ok hf
  refine ⟨citation, article, hmc, hart, ?_⟩
  unfold extractPubDate at hpd
  split at hpd
  next hdate =>
    left
    exact ⟨hdate, (Except.ok.inj hpd).symm⟩
  next hdate =>
    simp at hpd
  next d rest hdate =>
    split at hpd
    next y m dd hy hm hd =>
      right
      exact ⟨d, rest, y, m, dd, hdate, hy, hm, hd, (Except.ok.inj hpd).symm⟩
    all_goals simp at hpd

/-- Witness for C9 at a concrete record with a structured date. -/
theorem c9_witness :
    ∃ citation article, sampleRecord.medlineCitation = some citation ∧
      citation.article = some article ∧
      ((article.articleDate = none ∧ samplePaper.publication_date = "") ∨
        (∃ d rest y m dd, article.articleDate = some (d :: rest) ∧
          d.year = some y ∧ d.month = some m ∧ d.day = some dd ∧
          samplePaper.publication_date = y ++ "-" ++ m ++ "-" ++ dd)) :=
  c9_theorem sampleRecord samplePaper (by decide)

/-- Claim C2: for a non-empty record sequence and batch size `B > 0`,
the Batch Loader processes `⌈N / B⌉` contiguous slices in order (every
non-final slice of size `B`, the last of size `N mod B`, or `B` when
`B` divides `N`), issuing exactly one embedding call and one commit per
slice, each commit inserting one entity per record of its slice. -/
theorem c2_theorem {A T : Type _} (papers : List Paper) (B : Nat)
    (prov : Provider A T) (f : List String → List A)
    (commitRes : List (MedicalAbstract T) → Option Exn)
    (hB : 0 < B) (hne : papers ≠ [])
    (henc : ∀ ts, prov.encode ts = Except.ok (f ts))
    (hflen : ∀ ts, (f ts).length = ts.length)
    (hc : ∀ objs, commitRes objs = none) :
    (batches B papers).length = (papers.length + B - 1) / B ∧
    (∀ k (hk : k < (batches B papers).length),
      (batches B papers)[k] = (papers.drop (k * B)).take B) ∧
    (∀ k (hk : k < (batches B papers).length),
      k + 1 < (batches B papers).length → ((batches B papers)[k]).length = B) ∧
    (∀ hb : batches B papers ≠ [],
      ((batches B papers).getLast hb).length =
        if papers.length % B = 0 then B else papers.length % B) ∧
    (load_data_into_db B prov commitRes papers).2 = none ∧
    (load_data_into_db B prov commitRes papers).1 =
      (batches B papers).flatMap (fun b =>
        [LoadEvent.embedCall (b.map Paper.abstract),
          LoadEvent.commitBatch (mkObjects prov b (f (b.map Paper.abstract)))]) ∧
    List.countP (fun e => isEmbedCall e)
        (load_data_into_db B prov commitRes papers).1 =
      (batches B papers).length ∧
    List.countP (fun e => isCommit e)
        (load_data_into_db B prov commitRes papers).1 =
      (batches B papers).length ∧
    (∀ b ∈ batches B papers,
      (mkObjects prov b (f (b.map Paper.abstract))).length = b.length) := by
  have hN : 0 < papers.length := List.length_pos.mpr hne
  have hlenb : (batches B papers).length = (papers.length + B - 1) / B := by
    simp [batches, pyRangeStep]
  have hget : ∀ k (hk : k < (batches B papers).length),
      (batches B papers)[k] = (papers.drop (k * B)).take B := by
    intro k hk
    simp [batches, pyRangeStep]
  have hload := loadLoop_ok prov f henc commitRes hc (batches B papers)
  have hcount := countP_batch_events prov f (batches B papers)
  refine ⟨hlenb, hget, ?_, ?_, ?_, ?_, ?_, ?_, ?_⟩
  · intro k hk hk1
    rw [hget k hk]
    have hle : k * B + B ≤ papers.length :=
      mul_batch_le hB (by rw [hlenb] at hk1; exact hk1)
    simp only [List.length_take, List.length_drop]
    generalize k * B = m at hle ⊢
    omega
  · intro hb
    rw [List.getLast_eq_getElem]
    have hlt : (batches B papers).length - 1 < (batches B papers).length :=
      Nat.sub_lt (List.length_pos.mpr hb) Nat.one_pos
    rw [hget _ hlt, hlenb]
    simp only [List.length_take, List.length_drop]
    exact lastSliceLen hB hN
  · simp only [load_data_into_db, hload]
  · simp only [load_data_into_db, hload]
  · simp only [load_data_into_db, hload]
    exact hcount.1
  · simp only [load_data_into_db, hload]
    exact hcount.2
  · intro b hb
    rw [mkObjects_length, hflen, List.length_map, Nat.min_self]

/-- Witness for C2 exercising the end-to-end scenario of the spec:
with 2 fetched records and batch size 2, one embedding call, one
commit, two entities, no error. -/
theorem c2_witness :
    (batches 2 [samplePaper, partsPaper]).length = 1 ∧
    List.countP (fun e => isEmbedCall e)
        (load_data_into_db 2 sampleProvider commitOk
          [samplePaper, partsPaper]).1 = 1 ∧
    List.countP (fun e => isCommit e)
        (load_data_into_db 2 sampleProvider commitOk
          [samplePaper, partsPaper]).1 = 1 ∧
    (∀ b ∈ batches 2 [samplePaper, partsPaper],
      (mkObjects sampleProvider b
        (sampleEncode (b.map Paper.abstract))).length = 2) ∧
    (load_data_into_db 2 sampleProvider commitOk [samplePaper, partsPaper]).2 =
      none := by
  have h := c2_theorem [samplePaper, partsPaper] 2 sampleProvider sampleEncode
    commitOk (by decide) (by decide) (fun ts => rfl)
    (fun ts => by simp [sampleEncode]) (fun objs => rfl)
  refine ⟨?_, ?_, ?_, by decide, h.2.2.2.2.1⟩
  · rw [h.1]; decide
  · rw [h.2.2.2.2.2.2.1]; decide
  · rw [h.2.2.2.2.2.2.2.1]; decide

/-- Claim C6: the texts sent to the Embedding Provider are the batch's
abstracts in order, and under the same-length contract the `i`-th
constructed entity carries the `i`-th record's identifier, title,
abstract and publication date together with the converted `i`-th
embedding. -/
theorem c6_theorem {A T : Type _} (prov : Provider A T)
    (commitRes : List (MedicalAbstract T) → Option Exn)
    (batch : List Paper) (embeddings : List A)
    (henc : prov.encode (batch.map Paper.abstract) = Except.ok embeddings)
    (hlen : embeddings.length = batch.length) :
    (loadBatch prov commitRes batch).1.head? =
      some (LoadEvent.embedCall (batch.map Paper.abstract)) ∧
    (mkObjects prov batch embeddings).length = batch.length ∧
    (∀ (i : Nat) (p : Paper) (e : A), batch[i]? = some p → embeddings[i]? = some e →
      (mkObjects prov batch embeddings)[i]? =
        some (MedicalAbstract.mk p.pmid p.title p.abstract p.publication_date
          (prov.tolist e))) ∧
    (commitRes (mkObjects prov batch embeddings) = none →
      (loadBatch prov commitRes batch).1 =
        [LoadEvent.embedCall (batch.map Paper.abstract),
          LoadEvent.commitBatch (mkObjects prov batch embeddings)]) := by
  refine ⟨?_, ?_, ?_, ?_⟩
  · simp only [loadBatch, henc]
    cases hcr : commitRes (mkObjects prov batch embeddings) <;> simp [hcr]
  · rw [mkObjects_length, hlen, Nat.min_self]
  · intro i p e hp he
    exact mkObjects_getElem? prov batch embeddings i p e hp he
  · intro hcr
    simp only [loadBatch, henc]
    simp [hcr]

/-- Witness for C6 at a concrete two-record batch. -/
theorem c6_witness :
    (loadBatch sampleProvider commitOk [samplePaper, partsPaper]).1.head? =
      some (LoadEvent.embedCall
        (([samplePaper, partsPaper] : List Paper).map Paper.abstract)) ∧
    (mkObjects sampleProvider [samplePaper, partsPaper] [15, 22]).length = 2 ∧
    (∀ (i : Nat) (p : Paper) (e : Nat),
      ([samplePaper, partsPaper] : List Paper)[i]? = some p →
      ([15, 22] : List Nat)[i]? = some e →
      (mkObjects sampleProvider [samplePaper, partsPaper] [15, 22])[i]? =
        some (MedicalAbstract.mk p.pmid p.title p.abstract p.publication_date
          (sampleProvider.tolist e))) ∧
    (commitOk (mkObjects sampleProvider [samplePaper, partsPaper] [15, 22]) =
        none →
      (loadBatch sampleProvider commitOk [samplePaper, partsPaper]).1 =
        [LoadEvent.embedCall
          (([samplePaper, partsPaper] : List Paper).map Paper.abstract),
          LoadEvent.commitBatch
            (mkObjects sampleProvider [samplePaper, partsPaper] [15, 22])]) :=
  c6_theorem sampleProvider commitOk [samplePaper, partsPaper] [15, 22]
    (by decide) (by decide)

/-- Claim C10: when the Embedding Provider returns fewer vectors than
records, the Batch Loader raises no error and commits entities only for
the pairs up to the shorter length, silently dropping the surplus
records of the batch. -/
theorem c10_theorem {A T : Type _} (prov : Provider A T)
    (commitRes : List (MedicalAbstract T) → Option Exn)
    (batch : List Paper) (embeddings : List A)
    (henc : prov.encode (batch.map Paper.abstract) = Except.ok embeddings)
    (hshort : embeddings.length < batch.length)
    (hcr : commitRes (mkObjects prov batch embeddings) = none) :
    (loadBatch prov commitRes batch).2 = none ∧
    (loadBatch prov commitRes batch).1 =
      [LoadEvent.embedCall (batch.map Paper.abstract),
        LoadEvent.commitBatch (mkObjects prov batch embeddings)] ∧
    (mkObjects prov batch embeddings).length = embeddings.length ∧
    (mkObjects prov batch embeddings).length < batch.length ∧
    (∀ (i : Nat) (p : Paper) (e : A), batch[i]? = some p → embeddings[i]? = some e →
      (mkObjects prov batch embeddings)[i]? =
        some (MedicalAbstract.mk p.pmid p.title p.abstract p.publication_date
          (prov.tolist e))) := by
  have hlen : (mkObjects prov batch embeddings).length = embeddings.length := by
    rw [mkObjects_length]
    exact Nat.min_eq_right (Nat.le_of_lt hshort)
  refine ⟨?_, ?_, hlen, ?_, ?_⟩
  · simp only [loadBatch, henc]
    simp [hcr]
  · simp only [loadBatch, henc]
    simp [hcr]
  · rw [hlen]
    exact hshort
  · intro i p e hp he
    exact mkObjects_getElem? prov batch embeddings i p e hp he

/-- A provider that violates the same-length contract: it keeps only
the first vector. -/
def shortProvider : Provider Nat (List Nat) :=
  ⟨fun ts => Except.ok ((ts.map String.length).take 1), fun n => [n]⟩

/-- Witness for C10: two records, one returned vector, one committed
entity, no error. -/
theorem c10_witness :
    (loadBatch shortProvider commitOk [samplePaper, partsPaper]).2 = none ∧
    (loadBatch shortProvider commitOk [samplePaper, partsPaper]).1 =
      [LoadEvent.embedCall
        (([samplePaper, partsPaper] : List Paper).map Paper.abstract),
        LoadEvent.commitBatch
          (mkObjects shortProvider [samplePaper, partsPaper] [15])] ∧
    (mkObjects shortProvider [samplePaper, partsPaper] [15]).length =
      ([15] : List Nat).length ∧
    (mkObjects shortProvider [samplePaper, partsPaper] [15]).length <
      ([samplePaper, partsPaper] : List Paper).length ∧
    (∀ (i : Nat) (p : Paper) (e : Nat),
      ([samplePaper, partsPaper] : List Paper)[i]? = some p →
      ([15] : List Nat)[i]? = some e →
      (mkObjects shortProvider [samplePaper, partsPaper] [15])[i]? =
        some (MedicalAbstract.mk p.pmid p.title p.abstract p.publication_date
          (shortProvider.tolist e))) :=
  c10_theorem shortProvider commitOk [samplePaper, partsPaper] [15]
    (by decide) (by decide) (by decide)

/-- Claim C4: if the Record Fetcher returns an empty sequence, the
Batch Loader is never invoked — no embedding call and no commit appear
in the trace — and the process exits with status 0. -/
theorem c4_theorem {A T : Type _} (env : Env A T)
    (hinit : env.initOk = true) (hmodel : env.modelOk = true)
    (hnet : env.fetchNetOk = true)
    (hfetch : fetch_pubmed_abstracts env.rawRecords = Except.ok []) :
    (main env).2 = MainResult.exited 0 ∧
    ∀ e ∈ (main env).1, isEmbedCall e = false ∧ isCommit e = false := by
  simp [main, runFetch, hinit, hmodel, hnet, hfetch, isEmbedCall, isCommit]

/-- Environment in which the external source yields zero records. -/
def envNoRecords : Env Nat (List Nat) :=
  ⟨true, true, true, [], sampleProvider, commitOk⟩

/-- Witness for C4 at a concrete empty-source environment. -/
theorem c4_witness :
    (main envNoRecords).2 = MainResult.exited 0 ∧
    ∀ e ∈ (main envNoRecords).1, isEmbedCall e = false ∧ isCommit e = false :=
  c4_theorem envNoRecords rfl rfl rfl rfl

/-- Claim C5: if store setup fails, the process terminates with the
explicit non-zero status 1, and its trace contains neither a fetch call
nor an embedding call. -/
theorem c5_theorem {A T : Type _} (env : Env A T)
    (hinit : env.initOk = false) :
    (main env).2 = MainResult.exited 1 ∧
    (∀ c, (main env).2 = MainResult.exited c → c ≠ 0) ∧
    ∀ e ∈ (main env).1, isFetchCall e = false ∧ isEmbedCall e = false := by
  simp [main, hinit, isFetchCall, isEmbedCall]

/-- Environment in which store setup fails. -/
def envInitFails : Env Nat (List Nat) :=
  ⟨false, true, true, [sampleRecord], sampleProvider, commitOk⟩

/-- Witness for C5 at a concrete failing-setup environment. -/
theorem c5_witness :
    (main envInitFails).2 = MainResult.exited 1 ∧
    (∀ c, (main envInitFails).2 = MainResult.exited c → c ≠ 0) ∧
    ∀ e ∈ (main envInitFails).1, isFetchCall e = false ∧ isEmbedCall e = false :=
  c5_theorem envInitFails rfl

/-- Claim C7: every failure raised after store setup succeeds reaches
the single top-level catch — the run never performs an explicit
non-zero exit: a network failure during fetch, an uncaught fetch
exception, or a failing batch (embedding or commit error) all end in
`caughtGeneric` (the generic diagnostic is printed and `main` returns
with the default status). -/
theorem c7_theorem {A T : Type _} (env : Env A T)
    (hinit : env.initOk = true) :
    (∀ c, (main env).2 = MainResult.exited c → c = 0) ∧
    (env.modelOk = true → env.fetchNetOk = false →
      (main env).2 = MainResult.caughtGeneric) ∧
    (∀ e, env.modelOk = true → runFetch env = Except.error e →
      (main env).2 = MainResult.caughtGeneric) ∧
    (∀ papers, env.modelOk = true → runFetch env = Except.ok papers →
      papers ≠ [] →
      (load_data_into_db BATCH_SIZE env.prov env.commitRes papers).2.isSome =
        true →
      (main env).2 = MainResult.caughtGeneric) := by
  cases hmodel : env.modelOk with
  | false =>
    refine ⟨?_, ?_, ?_, ?_⟩
    · intro c hc
      simp [main, hinit, hmodel] at hc
    · intro hm
      exact absurd hm (by simp)
    · intro e hm
      exact absurd hm (by simp)
    · intro papers hm
      exact absurd hm (by simp)
  | true =>
    cases hrf : runFetch env with
    | error e =>
      refine ⟨?_, ?_, ?_, ?_⟩
      · intro c hc
        simp [main, hinit, hmodel, hrf] at hc
      · intro _ _
        simp [main, hinit, hmodel, hrf]
      · intro e2 _ _
        simp [main, hinit, hmodel, hrf]
      · intro papers _ hok
        exact absurd hok (by simp)
    | ok papers =>
      by_cases hemp : papers = []
      · subst hemp
        refine ⟨?_, ?_, ?_, ?_⟩
        · intro c hc
          simp [main, hinit, hmodel, hrf] at hc
          omega
        · intro _ hnet
          unfold runFetch at hrf
          rw [hnet] at hrf
          simp at hrf
        · intro e _ herr
          exact absurd herr (by simp)
        · intro ps _ hok hne
          injection hok with hok
          exact absurd hok.symm hne
      · cases hload :
          (load_data_into_db BATCH_SIZE env.prov env.commitRes papers).2 with
        | none =>
          refine ⟨?_, ?_, ?_, ?_⟩
          · intro c hc
            simp [main, hinit, hmodel, hrf, hemp, hload] at hc
          · intro _ hnet
            unfold runFetch at hrf
            rw [hnet] at hrf
            simp at hrf
          · intro e _ herr
            exact absurd herr (by simp)
          · intro ps _ hok hne hsome
            injection hok with hok
            subst hok
            rw [hload] at hsome
            exact absurd hsome (by simp)
        | some err =>
          refine ⟨?_, ?_, ?_, ?_⟩
          · intro c hc
            simp [main, hinit, hmodel, hrf, hemp, hload] at hc
          · intro _ hnet
            unfold runFetch at hrf
            rw [hnet] at hrf
            simp at hrf
          · intro e _ herr
            exact absurd herr (by simp)
          · intro ps _ hok hne hsome
            simp [main, hinit, hmodel, hrf, hemp, hload]

/-- Environment whose commit raises (e.g. a uniqueness violation). -/
def envCommitFails : Env Nat (List Nat) :=
  ⟨true, true, true, [sampleRecord], sampleProvider, commitViolation⟩

/-- Witness for C7: a failing commit ends in the generic top-level
catch, never in an explicit non-zero exit. -/
theorem c7_witness :
    (∀ c, (main envCommitFails).2 = MainResult.exited c → c = 0) ∧
    (main envCommitFails).2 = MainResult.caughtGeneric := by
  have h := c7_theorem envCommitFails rfl
  exact ⟨h.1, h.2.2.2 [samplePaper] rfl (by decide) (by decide) (by decide)⟩

end MedQuery
